import Mathlib

/-!
# Verification of the pyutils process/energy subsystem

Shallow embedding of `pyutils` (process execution, process-tree utilities and
energy profiling) into Lean 4, together with theorems settling the frozen
claims about its specification.

Conventions of the embedding:
* Python `float` values are modelled as exact rationals (`Rat`); all the
  arithmetic the claims mention (unit scaling, means, sums) is exact in the
  source, so no rounding behaviour is relevant to the claims.
* Fallible Python code (raising exceptions) is modelled with `Option` /
  `Except`; an `Except.error` value is a raised exception.
* The OS process table (psutil) is modelled as a fixed snapshot
  (`ProcTable`): liveness, recursive children and thread ids per pid.
* Mutable attributes are modelled by explicit state passing.
-/

/-! ## Energy samples and the profiler sample map (`pyutils/proc/energy.py`) -/

/-- `EnergySample` from `energy.py`: a power score together with the sampling
interval (in milliseconds) it represents. -/
structure EnergySample where
  power : Rat
  interval : Rat
  deriving DecidableEq, Repr

/-- `EnergySample.energy`: the energy score, `power * interval`. -/
def EnergySample.energy (s : EnergySample) : Rat :=
  s.power * s.interval

/-- The profiler's `_samples` dictionary, keyed by probe. Probes are
identified by `Nat` ids; the dictionary is an association list with the
first binding winning, like a Python dict with distinct keys. -/
def SampleMap : Type := List (Nat × List EnergySample)

/-- Dictionary lookup, `self._samples[probe]` before the `KeyError` check. -/
def lookupSamples : SampleMap → Nat → Option (List EnergySample)
  | [], _ => none
  | (q, l) :: rest, p => if q = p then some l else lookupSamples rest p

/-- `EnergyProfiler.samples`: `self._samples.get(probe, [])`. -/
def EnergyProfiler.samples (m : SampleMap) (p : Nat) : List EnergySample :=
  (lookupSamples m p).getD []

/-- `EnergyProfiler.score`: `sum(s.energy for s in self._samples[probe]) / 1E3`.
The subscript on a missing key raises `KeyError`, modelled as `Except.error`. -/
def EnergyProfiler.score (m : SampleMap) (p : Nat) : Except String Rat :=
  match lookupSamples m p with
  | none => Except.error "KeyError"
  | some l => Except.ok ((l.map EnergySample.energy).sum / 1000)

/-! ## Probe stop reconciliation (`EnergyProfiler._stop_probes`) -/

/-- The value returned by `EnergyProbe.stop()`: either a single aggregate
float or a sequence of floats. -/
inductive StopResult where
  | aggregate (v : Rat)
  | sequence (vs : List Rat)
  deriving DecidableEq, Repr

/-- The per-probe body of `EnergyProfiler._stop_probes`: reconcile the value
returned by `stop()` against the recorded sample slots. An aggregate float is
broadcast to every slot; a sequence must have exactly one value per slot,
otherwise `ValueError` is raised. -/
def stopReconcile (power : StopResult) (samples : List EnergySample) :
    Except String (List EnergySample) :=
  match power with
  | StopResult.aggregate v =>
      Except.ok (samples.map fun s => { s with power := v })
  | StopResult.sequence vs =>
      if vs.length ≠ samples.length then
        Except.error "Sample count does not match poll count"
      else
        Except.ok (List.zipWith (fun v s => { s with power := v }) vs samples)

/-- `EnergyProfiler._stop_probes` over all attached probes, in order: the
first reconciliation failure aborts the run. -/
def stopProbes : List (StopResult × List EnergySample) →
    Except String (List (List EnergySample))
  | [] => Except.ok []
  | (p, s) :: rest =>
      match stopReconcile p s with
      | Except.error e => Except.error e
      | Except.ok s1 =>
          match stopProbes rest with
          | Except.error e => Except.error e
          | Except.ok rest1 => Except.ok (s1 :: rest1)

/-! Helper lemmas about `zipWith` used for the slot-wise reconciliation. -/

theorem zipWith_fst_eq :
    ∀ (vs : List Rat) (samples : List EnergySample),
      vs.length = samples.length →
      (List.zipWith (fun v s => { s with power := v }) vs samples).map
          EnergySample.power = vs := by
  intro vs
  induction vs with
  | nil => intro samples _; simp
  | cons v vs ih =>
      intro samples h
      cases samples with
      | nil => simp at h
      | cons s ss =>
          simp only [List.zipWith, List.map]
          exact congrArg (v :: ·) (ih ss (by simpa using h))

theorem zipWith_interval_eq :
    ∀ (vs : List Rat) (samples : List EnergySample),
      vs.length = samples.length →
      (List.zipWith (fun v s => { s with power := v }) vs samples).map
          EnergySample.interval = samples.map EnergySample.interval := by
  intro vs
  induction vs with
  | nil => intro samples h
           cases samples with
           | nil => simp
           | cons s ss => simp at h
  | cons v vs ih =>
      intro samples h
      cases samples with
      | nil => simp at h
      | cons s ss =>
          simp only [List.zipWith, List.map]
          exact congrArg (s.interval :: ·) (ih ss (by simpa using h))

/-- C3: in the cleanup phase, each probe's `stop()` value is reconciled
against that probe's recorded sample slots: a single aggregate float is
broadcast as the power of every recorded slot (intervals and slot count
untouched); a sequence whose length differs from the recorded slot count
fails the run with an error; a sequence of matching length assigns its i-th
value as the power of the i-th slot (again leaving intervals untouched). -/
theorem c3_stop_reconciliation :
    (∀ (v : Rat) (samples : List EnergySample),
      ∃ r, stopReconcile (StopResult.aggregate v) samples = Except.ok r ∧
        r.length = samples.length ∧
        (∀ s ∈ r, s.power = v) ∧
        r.map EnergySample.interval = samples.map EnergySample.interval) ∧
    (∀ (vs : List Rat) (samples : List EnergySample),
      vs.length ≠ samples.length →
      ∃ e, stopReconcile (StopResult.sequence vs) samples = Except.error e) ∧
    (∀ (vs : List Rat) (samples : List EnergySample),
      vs.length = samples.length →
      ∃ r, stopReconcile (StopResult.sequence vs) samples = Except.ok r ∧
        r.map EnergySample.power = vs ∧
        r.map EnergySample.interval = samples.map EnergySample.interval) := by
  refine ⟨?_, ?_, ?_⟩
  · intro v samples
    refine ⟨samples.map fun s => { power := v, interval := s.interval }, ?_, ?_, ?_, ?_⟩
    · rfl
    · simp
    · intro s hs
      rcases List.mem_map.mp hs with ⟨t, _, rfl⟩
      rfl
    · simp only [List.map_map]
      rfl
  · intro vs samples h
    exact ⟨"Sample count does not match poll count", by simp [stopReconcile, h]⟩
  · intro vs samples h
    refine ⟨List.zipWith (fun v s => { s with power := v }) vs samples,
      by simp [stopReconcile, h], ?_, ?_⟩
    · exact zipWith_fst_eq vs samples h
    · exact zipWith_interval_eq vs samples h

/-- Witness for C3 at concrete inputs: broadcast of `2` over two slots,
a mismatching sequence, and a matching sequence. -/
theorem c3_stop_reconciliation_witness :
    (∃ r, stopReconcile (StopResult.aggregate 2) [⟨0, 10⟩, ⟨0, 20⟩] = Except.ok r ∧
      r.length = 2 ∧ (∀ s ∈ r, s.power = 2) ∧
      r.map EnergySample.interval = [10, 20]) ∧
    (∃ e, stopReconcile (StopResult.sequence [1]) [⟨0, 10⟩, ⟨0, 20⟩] = Except.error e) ∧
    (∃ r, stopReconcile (StopResult.sequence [3, 4]) [⟨0, 10⟩, ⟨0, 20⟩] = Except.ok r ∧
      r.map EnergySample.power = [3, 4] ∧
      r.map EnergySample.interval = [10, 20]) := by
  refine ⟨?_, ?_, ?_⟩
  · have h := c3_stop_reconciliation.1 2 [⟨0, 10⟩, ⟨0, 20⟩]
    rcases h with ⟨r, h1, h2, h3, h4⟩
    exact ⟨r, h1, h2, h3, h4⟩
  · exact c3_stop_reconciliation.2.1 [1] [⟨0, 10⟩, ⟨0, 20⟩] (by decide)
  · exact c3_stop_reconciliation.2.2 [3, 4] [⟨0, 10⟩, ⟨0, 20⟩] (by decide)

/-- C4: `score(probe)` is the sum over the probe's recorded samples of
`power * interval`, divided by 1000, and the `energy` accessor of a sample is
`power * interval` (with `interval` held in milliseconds by construction). -/
theorem c4_score_formula :
    (∀ (m : SampleMap) (p : Nat) (l : List EnergySample),
      lookupSamples m p = some l →
      EnergyProfiler.score m p =
        Except.ok ((l.map fun s => s.power * s.interval).sum / 1000)) ∧
    (∀ s : EnergySample, s.energy = s.power * s.interval) := by
  constructor
  · intro m p l h
    simp only [EnergyProfiler.score, h]
    rfl
  · intro s
    rfl

/-- Witness for C4: a profiler with one probe holding two samples. -/
theorem c4_score_formula_witness :
    EnergyProfiler.score [(0, [⟨2, 100⟩, ⟨3, 50⟩])] 0 =
      Except.ok (([⟨2, 100⟩, ⟨3, 50⟩].map
        fun s : EnergySample => s.power * s.interval).sum / 1000) :=
  c4_score_formula.1 [(0, [⟨2, 100⟩, ⟨3, 50⟩])] 0 [⟨2, 100⟩, ⟨3, 50⟩] rfl

/-- C10: for a probe with no recorded samples (never attached), `samples`
returns `[]` and never raises while `score` raises a `KeyError`; for an
attached probe both operate on the same underlying recorded list. -/
theorem c10_samples_vs_score :
    ∀ (m : SampleMap) (p : Nat),
      (lookupSamples m p = none →
        EnergyProfiler.samples m p = [] ∧
        EnergyProfiler.score m p = Except.error "KeyError") ∧
      (∀ l, lookupSamples m p = some l →
        EnergyProfiler.samples m p = l ∧
        EnergyProfiler.score m p =
          Except.ok ((l.map EnergySample.energy).sum / 1000)) := by
  intro m p
  constructor
  · intro h
    simp [EnergyProfiler.samples, EnergyProfiler.score, h]
  · intro l h
    simp [EnergyProfiler.samples, EnergyProfiler.score, h]

/-- Witness for C10: an empty profiler map (probe never attached) and a
one-probe map. -/
theorem c10_samples_vs_score_witness :
    (EnergyProfiler.samples [] 0 = [] ∧
      EnergyProfiler.score [] 0 = Except.error "KeyError") ∧
    (EnergyProfiler.samples [(1, [⟨5, 7⟩])] 1 = [⟨5, 7⟩] ∧
      EnergyProfiler.score [(1, [⟨5, 7⟩])] 1 =
        Except.ok (([⟨5, 7⟩].map EnergySample.energy).sum / 1000)) :=
  ⟨(c10_samples_vs_score [] 0).1 rfl,
   (c10_samples_vs_score [(1, [⟨5, 7⟩])] 1).2 [⟨5, 7⟩] rfl⟩

/-! ## Process table and process-tree utilities (`pyutils/proc/util.py`)

The psutil process table is modelled as a fixed snapshot: which pids are
alive, each pid's direct and recursive children, and each pid's thread ids.
Races in which a process exits between enumeration and use are outside the
snapshot model. -/

/-- Snapshot of the OS process table as seen through psutil. -/
structure ProcTable where
  alive : Int → Bool
  childrenRec : Int → List Int
  childrenDirect : Int → List Int
  threads : Int → List Int

/-- `psutil.Process(pid).children(recursive=...)`. -/
def ProcTable.childrenOf (t : ProcTable) (pid : Int) (recursive : Bool) : List Int :=
  if recursive then t.childrenRec pid else t.childrenDirect pid

/-- `get_children_pids` from `util.py`: thread ids of `pid` when requested,
then, per child, the child's pid followed by its thread ids when requested.
Returns `none` (Python `None`) when no process with `pid` exists
(`psutil.NoSuchProcess`). -/
def get_children_pids (t : ProcTable) (pid : Int) (recursive include_tids : Bool) :
    Option (List Int) :=
  if t.alive pid then
    some ((if include_tids then t.threads pid else []) ++
      (t.childrenOf pid recursive).flatMap
        (fun p => p :: (if include_tids then t.threads p else [])))
  else none

/-- `get_pid_tree` from `util.py`: `[]` when the pid does not exist, else the
pid followed by its recursive children (and optionally thread ids). -/
def get_pid_tree (t : ProcTable) (pid : Int) (include_tids : Bool) : List Int :=
  match get_children_pids t pid true include_tids with
  | none => []
  | some pids => pid :: pids

/-- C5: `get_pid_tree` on a live childless process, without requesting thread
ids, is exactly `[pid]`; on a pid for which no process exists it is `[]`
rather than an error (the embedding is a total function returning a list). -/
theorem c5_pid_tree :
    ∀ (t : ProcTable) (pid : Int),
      (t.alive pid = true → t.childrenRec pid = [] →
        get_pid_tree t pid false = [pid]) ∧
      (t.alive pid = false → ∀ include_tids,
        get_pid_tree t pid include_tids = []) := by
  intro t pid
  constructor
  · intro ha hc
    simp [get_pid_tree, get_children_pids, ProcTable.childrenOf, ha, hc]
  · intro ha include_tids
    simp [get_pid_tree, get_children_pids, ha]

/-- Witness for C5: a table in which pid 1 is alive and childless and pid 2
does not exist. -/
theorem c5_pid_tree_witness :
    get_pid_tree ⟨fun p => p == 1, fun _ => [], fun _ => [], fun _ => []⟩ 1 false = [1] ∧
    get_pid_tree ⟨fun p => p == 1, fun _ => [], fun _ => [], fun _ => []⟩ 2 true = [] :=
  ⟨(c5_pid_tree ⟨fun p => p == 1, fun _ => [], fun _ => [], fun _ => []⟩ 1).1
      (by decide) rfl,
   (c5_pid_tree ⟨fun p => p == 1, fun _ => [], fun _ => [], fun _ => []⟩ 2).2
      (by decide) true⟩

/-! ## Signal delivery (`util.kill`) and the Task state machine
(`pyutils/proc/task.py`) -/

/-- The SIGKILL signal number. -/
def SIGKILL : Int := 9

/-- `kill` from `util.py`: signals every recursive child first, then the
process itself. Raises `psutil.NoSuchProcess` (`none`) when the pid is not
alive; delivered signals are returned as an ordered `(pid, sig)` event list. -/
def kill (t : ProcTable) (pid : Int) (sig : Int) (children : Bool) :
    Option (List (Int × Int)) :=
  if t.alive pid then
    some ((if children then (t.childrenRec pid).map (fun c => (c, sig)) else [])
      ++ [(pid, sig)])
  else none

/-- The frozen result record of a completed task
(`subprocess.CompletedProcess`, as stored by `Task.wait`). The `rusage`
snapshot is not modelled (no claim mentions it). -/
structure CompletedProcess where
  returncode : Int
  stdout : Option String
  stderr : Option String
  deriving DecidableEq, Repr

/-- The mutable state of a `Task`: its process handle (pid plus a flag for
`self._process` being set) and the `_completed` record, present exactly once
the task has completed. -/
structure TaskState where
  pid : Int
  hasProcess : Bool
  completed : Option CompletedProcess
  deriving Repr

/-- `Task.send_signal`: delivers `sig` via `kill` (fanning out to the
recursive children when `children` is set) only when a process handle exists
and the task has not completed; otherwise does nothing. Returns the
delivered-signal events (`none` = an exception escaped from `kill`) and the
task state, which the method never mutates. -/
def Task.send_signal (t : ProcTable) (st : TaskState) (sig : Int) (children : Bool) :
    Option (List (Int × Int)) × TaskState :=
  if st.hasProcess && st.completed.isNone then
    (kill t st.pid sig children, st)
  else
    (some [], st)

/-- C9: `send_signal` delivers the signal to the task's process (and, when
`children` is set, to all of its recursive descendants) only while the task
is still running; on a completed task it is a no-op that delivers no signal
and leaves the task state unchanged. -/
theorem c9_send_signal :
    ∀ (t : ProcTable) (st : TaskState) (sig : Int) (children : Bool),
      (∀ c, st.completed = some c →
        Task.send_signal t st sig children = (some [], st)) ∧
      (st.completed = none → st.hasProcess = true → t.alive st.pid = true →
        Task.send_signal t st sig children =
          (some ((if children then (t.childrenRec st.pid).map (fun c => (c, sig)) else [])
            ++ [(st.pid, sig)]), st)) := by
  intro t st sig children
  constructor
  · intro c hc
    simp [Task.send_signal, hc]
  · intro hc hp ha
    simp [Task.send_signal, hc, hp, kill, ha]

/-- Witness for C9: a completed task ignores the signal; a running task with
one child delivers SIGKILL to the child and then to itself. -/
theorem c9_send_signal_witness :
    (Task.send_signal ⟨fun _ => true, fun _ => [5], fun _ => [5], fun _ => []⟩
        ⟨1, true, some ⟨0, none, none⟩⟩ SIGKILL true =
      (some [], ⟨1, true, some ⟨0, none, none⟩⟩)) ∧
    (Task.send_signal ⟨fun _ => true, fun _ => [5], fun _ => [5], fun _ => []⟩
        ⟨1, true, none⟩ SIGKILL true =
      (some [(5, SIGKILL), (1, SIGKILL)], ⟨1, true, none⟩)) := by
  constructor
  · exact (c9_send_signal ⟨fun _ => true, fun _ => [5], fun _ => [5], fun _ => []⟩
      ⟨1, true, some ⟨0, none, none⟩⟩ SIGKILL true).1 ⟨0, none, none⟩ rfl
  · exact (c9_send_signal ⟨fun _ => true, fun _ => [5], fun _ => [5], fun _ => []⟩
      ⟨1, true, none⟩ SIGKILL true).2 rfl rfl rfl

/-! ## `Task.wait` (`pyutils/proc/task.py`)

`wait` calls `communicate(timeout)`; on `TimeoutExpired` it SIGKILLs the
process tree, drains the remaining buffered output with a bounded
`communicate(timeout=5.0)` and re-raises `TimeoutExpired` carrying the
drained output; on any other exception it SIGKILLs the process tree and
re-raises. The `finally` block always freezes a `CompletedProcess` from
whatever `out`/`err` hold at that point. The environment supplies the
outcome of the first `communicate`, the drained output, the exit status
`poll()` reports, and the process-table snapshot used by `kill`; the
`rusage` bookkeeping of `__patch_wait` is not modelled (no claim uses it). -/

/-- Outcome of `Popen.communicate(timeout)` as supplied by the environment. -/
inductive CommOutcome where
  | ok (out err : String)
  | timeout
  | failure
  deriving DecidableEq, Repr

/-- Observable events of one `Task.wait` call: a delivered signal, or the
final bounded drain (`communicate` with its timeout bound in seconds). -/
inductive WaitEv where
  | killSig (pid : Int) (sig : Int)
  | drain (bound : Rat)
  deriving DecidableEq, Repr

/-- Environment of one `Task.wait` call. -/
structure WaitEnv where
  table : ProcTable
  comm : CommOutcome
  drainOut : String
  drainErr : String
  pollCode : Int

/-- What a `Task.wait` call raises, if anything. -/
inductive WaitResult where
  | normal
  | timeoutExpired (out err : String)
  | errorRaised
  deriving DecidableEq, Repr

/-- `Task.wait`: returns the post-state (with the frozen result record set
by the `finally` block), the ordered event trace and what was raised. -/
def Task.wait (st : TaskState) (env : WaitEnv) :
    TaskState × List WaitEv × WaitResult :=
  match env.comm with
  | CommOutcome.ok out err =>
      ({ st with completed := some ⟨env.pollCode, some out, some err⟩ },
       [], WaitResult.normal)
  | CommOutcome.timeout =>
      match Task.send_signal env.table st SIGKILL true with
      | (some evs, st1) =>
          ({ st1 with completed := some ⟨env.pollCode, some env.drainOut, some env.drainErr⟩ },
           evs.map (fun e => WaitEv.killSig e.1 e.2) ++ [WaitEv.drain 5],
           WaitResult.timeoutExpired env.drainOut env.drainErr)
      | (none, st1) =>
          ({ st1 with completed := some ⟨env.pollCode, none, none⟩ },
           [], WaitResult.errorRaised)
  | CommOutcome.failure =>
      match Task.send_signal env.table st SIGKILL true with
      | (some evs, st1) =>
          ({ st1 with completed := some ⟨env.pollCode, none, none⟩ },
           evs.map (fun e => WaitEv.killSig e.1 e.2), WaitResult.errorRaised)
      | (none, st1) =>
          ({ st1 with completed := some ⟨env.pollCode, none, none⟩ },
           [], WaitResult.errorRaised)

/-- C1: on a running task, if the first `communicate` times out then `wait`
SIGKILLs every recursive descendant and the process itself, performs the one
final bounded drain (5-second bound) after those kills, and raises a timeout
error carrying exactly the drained stdout/stderr; if the first `communicate`
raises any other exception, the same SIGKILL fan-out happens and the
exception propagates — in both failure modes the process and each of its
descendants receive a SIGKILL event, so a failing wait never leaves the
spawned process tree unsignalled. -/
theorem c1_wait_kills_on_failure :
    ∀ (st : TaskState) (env : WaitEnv),
      st.completed = none → st.hasProcess = true →
      env.table.alive st.pid = true →
      (env.comm = CommOutcome.timeout →
        (Task.wait st env).2.1 =
          (env.table.childrenRec st.pid).map (fun c => WaitEv.killSig c SIGKILL)
            ++ [WaitEv.killSig st.pid SIGKILL] ++ [WaitEv.drain 5] ∧
        (Task.wait st env).2.2 =
          WaitResult.timeoutExpired env.drainOut env.drainErr) ∧
      (env.comm = CommOutcome.failure →
        (Task.wait st env).2.1 =
          (env.table.childrenRec st.pid).map (fun c => WaitEv.killSig c SIGKILL)
            ++ [WaitEv.killSig st.pid SIGKILL] ∧
        (Task.wait st env).2.2 = WaitResult.errorRaised) ∧
      (env.comm = CommOutcome.timeout ∨ env.comm = CommOutcome.failure →
        WaitEv.killSig st.pid SIGKILL ∈ (Task.wait st env).2.1 ∧
        ∀ c ∈ env.table.childrenRec st.pid,
          WaitEv.killSig c SIGKILL ∈ (Task.wait st env).2.1) := by
  intro st env hc hp ha
  have hsig : Task.send_signal env.table st SIGKILL true =
      (some ((env.table.childrenRec st.pid).map (fun c => (c, SIGKILL))
        ++ [(st.pid, SIGKILL)]), st) :=
    (c9_send_signal env.table st SIGKILL true).2 hc hp ha
  have htrace : ∀ hcomm : env.comm = CommOutcome.timeout,
      (Task.wait st env).2.1 =
        (env.table.childrenRec st.pid).map (fun c => WaitEv.killSig c SIGKILL)
          ++ [WaitEv.killSig st.pid SIGKILL] ++ [WaitEv.drain 5] := by
    intro hcomm
    simp [Task.wait, hcomm, hsig, List.map_map, Function.comp]
  have htrace2 : ∀ hcomm : env.comm = CommOutcome.failure,
      (Task.wait st env).2.1 =
        (env.table.childrenRec st.pid).map (fun c => WaitEv.killSig c SIGKILL)
          ++ [WaitEv.killSig st.pid SIGKILL] := by
    intro hcomm
    simp [Task.wait, hcomm, hsig, List.map_map, Function.comp]
  refine ⟨fun hcomm => ⟨htrace hcomm, ?_⟩, fun hcomm => ⟨htrace2 hcomm, ?_⟩, ?_⟩
  · simp [Task.wait, hcomm, hsig]
  · simp [Task.wait, hcomm, hsig]
  · rintro (hcomm | hcomm)
    · rw [htrace hcomm]
      refine ⟨by simp, fun c hmem => ?_⟩
      simp only [List.mem_append]
      exact Or.inl (Or.inl (List.mem_map.mpr ⟨c, hmem, rfl⟩))
    · rw [htrace2 hcomm]
      refine ⟨by simp, fun c hmem => ?_⟩
      simp only [List.mem_append]
      exact Or.inl (List.mem_map.mpr ⟨c, hmem, rfl⟩)

/-- Witness for C1: a running task (pid 1, children 2 and 3) whose
`communicate` times out: the trace kills 2, 3, then 1, then drains, and the
raised timeout error carries the drained output. -/
theorem c1_wait_kills_on_failure_witness :
    (Task.wait ⟨1, true, none⟩
        ⟨⟨fun _ => true, fun _ => [2, 3], fun _ => [2, 3], fun _ => []⟩,
          CommOutcome.timeout, "partial out", "partial err", -9⟩).2.1 =
      [WaitEv.killSig 2 SIGKILL, WaitEv.killSig 3 SIGKILL,
        WaitEv.killSig 1 SIGKILL, WaitEv.drain 5] ∧
    (Task.wait ⟨1, true, none⟩
        ⟨⟨fun _ => true, fun _ => [2, 3], fun _ => [2, 3], fun _ => []⟩,
          CommOutcome.timeout, "partial out", "partial err", -9⟩).2.2 =
      WaitResult.timeoutExpired "partial out" "partial err" := by
  have h := (c1_wait_kills_on_failure ⟨1, true, none⟩
    ⟨⟨fun _ => true, fun _ => [2, 3], fun _ => [2, 3], fun _ => []⟩,
      CommOutcome.timeout, "partial out", "partial err", -9⟩ rfl rfl rfl).1 rfl
  exact ⟨by rw [h.1]; rfl, h.2⟩

/-! ## Output trimming (C2)

The current `Task.wait` (`pyutils/proc/task.py`) freezes `out`/`err` exactly
as returned by `communicate`, with no trimming. The legacy `Task.wait`
(`src/proc.py`) instead runs `stdout.strip()` / `stderr.strip()` on truthy
output, which removes whitespace from *both* ends. Python whitespace is
modelled by its ASCII subset, the only part relevant to the claims. -/

/-- ASCII Python whitespace (`str.strip` default set, ASCII part). -/
def pyIsSpace (c : Char) : Bool :=
  c == ' ' || c == '\t' || c == '\n' || c == '\r' || c == '\x0b' || c == '\x0c'

/-- Python `str.strip()` on a character list: drop leading and trailing
whitespace. -/
def pyStripList (l : List Char) : List Char :=
  ((l.dropWhile pyIsSpace).reverse.dropWhile pyIsSpace).reverse

/-- Python `str.strip()`. -/
def pyStrip (s : String) : String :=
  ⟨pyStripList s.toList⟩

/-- Whether a string ends in (Python) whitespace. -/
def hasTrailingWs (s : String) : Bool :=
  match s.toList.getLast? with
  | some c => pyIsSpace c
  | none => false

/-- The legacy `src/proc.py` freeze of one captured stream:
`if stdout: stdout = stdout.strip()`. -/
def legacyFreezeStream (o : Option String) : Option String :=
  match o with
  | some s => if s == "" then some s else some (pyStrip s)
  | none => none

/-- After `dropWhile p`, the head (if any) does not satisfy `p`. -/
theorem head_dropWhile_not (p : Char → Bool) :
    ∀ l : List Char, ∀ c, (l.dropWhile p).head? = some c → p c = false := by
  intro l
  induction l with
  | nil => intro c h; simp [List.dropWhile] at h
  | cons a as ih =>
      intro c h
      by_cases hp : p a
      · exact ih c (by simpa [List.dropWhile, hp] using h)
      · simp [List.dropWhile, hp] at h
        rw [← h]
        exact Bool.of_not_eq_true hp

/-- `pyStrip` output never ends in whitespace. -/
theorem pyStrip_no_trailing (s : String) : hasTrailingWs (pyStrip s) = false := by
  have htl : (pyStrip s).toList = pyStripList s.toList := rfl
  unfold hasTrailingWs
  rw [htl]
  cases h : (pyStripList s.toList).getLast? with
  | none => rfl
  | some c =>
      have h1 : ((s.toList.dropWhile pyIsSpace).reverse.dropWhile pyIsSpace).reverse.getLast?
          = some c := h
      have h2 : ((s.toList.dropWhile pyIsSpace).reverse.dropWhile pyIsSpace).head? = some c := by
        rw [← List.getLast?_reverse]
        exact h1
      exact head_dropWhile_not pyIsSpace (s.toList.dropWhile pyIsSpace).reverse c h2

/-- Counterexample for C2 as stated: the claim asserts the frozen stdout of a
completed task contains no trailing whitespace, but the current `Task.wait`
freezes the captured output verbatim, so a process writing a trailing
space-newline yields a frozen stdout ending in whitespace. -/
theorem c2_counterexample :
    ¬ (∀ (st : TaskState) (env : WaitEnv) (out err : String),
        env.comm = CommOutcome.ok out err →
        ∀ c s, (Task.wait st env).1.completed = some c → c.stdout = some s →
          hasTrailingWs s = false) := by
  intro h
  have := h ⟨1, true, none⟩
    ⟨⟨fun _ => true, fun _ => [], fun _ => [], fun _ => []⟩,
      CommOutcome.ok "a \n" "", "", "", 0⟩
    "a \n" "" rfl ⟨0, some "a \n", some ""⟩ "a \n" rfl rfl
  simp [hasTrailingWs, pyIsSpace] at this

/-- C2 (amended): the current `Task.wait` freezes the captured stdout/stderr
into the completed result exactly as read, with no trimming — so they are
non-empty iff the process wrote to the stream but may end in whitespace;
only the legacy `Task.wait` trims, and it strips whitespace from both ends
of truthy output, so its frozen streams never end in whitespace. -/
theorem c2_no_trimming_current_strip_legacy :
    (∀ (st : TaskState) (env : WaitEnv) (out err : String),
      env.comm = CommOutcome.ok out err →
      (Task.wait st env).1.completed = some ⟨env.pollCode, some out, some err⟩) ∧
    (∀ (o : Option String) (r : String),
      legacyFreezeStream o = some r → r ≠ "" → hasTrailingWs r = false) := by
  constructor
  · intro st env out err hcomm
    simp [Task.wait, hcomm]
  · intro o r hfreeze hne
    match o with
    | none => simp [legacyFreezeStream] at hfreeze
    | some s =>
        by_cases hs : s == ""
        · simp [legacyFreezeStream, hs] at hfreeze
          subst hfreeze
          simp at hs
          exact absurd hs hne
        · simp [legacyFreezeStream, hs] at hfreeze
          rw [← hfreeze]
          exact pyStrip_no_trailing s

/-- Witness for C2 (amended): a run capturing `"a \n"` freezes it verbatim,
and the legacy freeze of `"a \n"` is the fully stripped `"a"`, which has no
trailing whitespace. -/
theorem c2_no_trimming_witness :
    (Task.wait ⟨1, true, none⟩
        ⟨⟨fun _ => true, fun _ => [], fun _ => [], fun _ => []⟩,
          CommOutcome.ok "a \n" "b", "", "", 0⟩).1.completed =
      some ⟨0, some "a \n", some "b"⟩ ∧
    hasTrailingWs "a" = false := by
  constructor
  · exact c2_no_trimming_current_strip_legacy.1 ⟨1, true, none⟩
      ⟨⟨fun _ => true, fun _ => [], fun _ => [], fun _ => []⟩,
        CommOutcome.ok "a \n" "b", "", "", 0⟩ "a \n" "b" rfl
  · exact c2_no_trimming_current_strip_legacy.2 (some "a \n") "a"
      (by decide) (by decide)

/-! ## Powermetrics chunk parsing (`PowermetricsProbe._parse_tasks`, C6)

A parsed chunk is a list of task lines; each line either fails the
`int(components[1])` / `float(components[-1])` parse (`unparsed`, covering
`IndexError`/`ValueError`) or yields a pid and a score. The profiled pid set
and the samples recorded so far are inputs; the loop threads the mutable pid
list (`pids.remove`), the running `score` and the `dead_tasks_score`. -/

/-- One pre-tokenized powermetrics task line. -/
inductive TaskLine where
  | unparsed
  | row (pid : Int) (score : Rat)
  deriving DecidableEq, Repr

/-- Python `list.remove(x)`: drop the first occurrence; `none` models the
`ValueError` raised when `x` is absent. -/
def removeFirst : List Int → Int → Option (List Int)
  | [], _ => none
  | x :: xs, y => if x = y then some xs else (removeFirst xs y).map (x :: ·)

/-- `PowermetricsProbe._mean`: mean of the recorded samples, `0.0` when none. -/
def sampleMean (samples : List Rat) : Rat :=
  if samples.length = 0 then 0 else samples.sum / samples.length

/-- `PowermetricsProbe._validated_dead_tasks_score`: outlier rejection, only
applied when more than one sample has been recorded. -/
def validatedDeadScore (samples : List Rat) (score : Rat) : Rat :=
  if 1 < samples.length ∧ (samples.length : Rat) * sampleMean samples / 2 < score then
    sampleMean samples
  else score

/-- The line loop of `_parse_tasks`: returns the final `score`,
`dead_tasks_score` and pid list. -/
def parseTasksLoop (samples : List Rat) :
    List TaskLine → List Int → Option Rat → Option Rat →
      Option Rat × Option Rat × List Int
  | [], pids, score, dead => (score, dead, pids)
  | TaskLine.unparsed :: rest, pids, score, dead =>
      parseTasksLoop samples rest pids score dead
  | TaskLine.row pid v :: rest, pids, score, dead =>
      if pid = -1 then
        parseTasksLoop samples rest pids score (some (validatedDeadScore samples v))
      else
        match removeFirst pids pid with
        | some pids1 =>
            parseTasksLoop samples rest pids1
              (some (match score with | none => v | some s => s + v)) dead
        | none => parseTasksLoop samples rest pids score dead

/-- `PowermetricsProbe._parse_tasks`: fall back to the dead-tasks score when
no profiled pid contributed, and append the resulting sample (if any). -/
def parse_tasks (pids : List Int) (samples : List Rat) (lines : List TaskLine) :
    List Rat :=
  let r := parseTasksLoop samples lines pids none none
  match r.1 with
  | some s => samples ++ [s]
  | none =>
      match r.2.1 with
      | some d => samples ++ [d]
      | none => samples

/-- The raw value of a dead-tasks (`pid == -1`) line. -/
def deadVal : TaskLine → Option Rat
  | TaskLine.row pid v => if pid = -1 then some v else none
  | TaskLine.unparsed => none

/-- The raw value of the last dead-tasks line of a chunk. -/
def lastDeadVal (lines : List TaskLine) : Option Rat :=
  (lines.filterMap deadVal).getLast?

theorem removeFirst_eq_none (x : Int) :
    ∀ l : List Int, removeFirst l x = none ↔ x ∉ l := by
  intro l
  induction l with
  | nil => simp [removeFirst]
  | cons a as ih =>
      by_cases h : a = x
      · simp [removeFirst, h]
      · have h2 : ¬ x = a := fun hx => h hx.symm
        simp [removeFirst, h, h2, Option.map_eq_none', ih]

theorem getLast?_cons_getD {α : Type} :
    ∀ (l : List α) (a : α), (a :: l).getLast? = some (l.getLast?.getD a)
  | [], _ => rfl
  | b :: bs, a => by
      have ih := getLast?_cons_getD bs b
      rw [List.getLast?_cons_cons, ih]
      rfl

/-- Characterization of the `_parse_tasks` loop on chunks containing no row
of the profiled pid set: the score stays `None`, the pid set is untouched,
and the dead-tasks score is the validated value of the last dead-tasks line
(else the initial value). -/
theorem parseTasksLoop_no_tree_rows (samples : List Rat) :
    ∀ (lines : List TaskLine) (pids : List Int) (dead : Option Rat),
      (∀ p v, TaskLine.row p v ∈ lines → p = -1 ∨ p ∉ pids) →
      parseTasksLoop samples lines pids none dead =
        (none,
         Option.or ((lastDeadVal lines).map (validatedDeadScore samples)) dead,
         pids) := by
  intro lines
  induction lines with
  | nil => intro pids dead _; rfl
  | cons line rest ih =>
      intro pids dead hrows
      have hrest : ∀ p v, TaskLine.row p v ∈ rest → p = -1 ∨ p ∉ pids :=
        fun p v hm => hrows p v (List.mem_cons_of_mem line hm)
      cases line with
      | unparsed =>
          rw [show parseTasksLoop samples (TaskLine.unparsed :: rest) pids none dead =
            parseTasksLoop samples rest pids none dead from rfl]
          rw [ih pids dead hrest]
          rfl
      | row pid v =>
          rcases hrows pid v (List.mem_cons_self _ _) with hdead | hout
          · subst hdead
            rw [show parseTasksLoop samples (TaskLine.row (-1) v :: rest) pids none dead =
              parseTasksLoop samples rest pids none
                (some (validatedDeadScore samples v)) from by
                  simp [parseTasksLoop]]
            rw [ih pids (some (validatedDeadScore samples v)) hrest]
            have hlast : lastDeadVal (TaskLine.row (-1) v :: rest) =
                some ((lastDeadVal rest).getD v) := by
              unfold lastDeadVal
              rw [show List.filterMap deadVal (TaskLine.row (-1) v :: rest) =
                v :: List.filterMap deadVal rest from by simp [deadVal]]
              exact getLast?_cons_getD _ v
            rw [hlast]
            cases hr : lastDeadVal rest with
            | none => simp [hr, Option.or]
            | some w => simp [hr, Option.or]
          · by_cases hpid : pid = -1
            · subst hpid
              rw [show parseTasksLoop samples (TaskLine.row (-1) v :: rest) pids none dead =
                parseTasksLoop samples rest pids none
                  (some (validatedDeadScore samples v)) from by
                    simp [parseTasksLoop]]
              rw [ih pids (some (validatedDeadScore samples v)) hrest]
              have hlast : lastDeadVal (TaskLine.row (-1) v :: rest) =
                  some ((lastDeadVal rest).getD v) := by
                unfold lastDeadVal
                rw [show List.filterMap deadVal (TaskLine.row (-1) v :: rest) =
                  v :: List.filterMap deadVal rest from by simp [deadVal]]
                exact getLast?_cons_getD _ v
              rw [hlast]
              cases hr : lastDeadVal rest with
              | none => simp [hr, Option.or]
              | some w => simp [hr, Option.or]
            · have hrm : removeFirst pids pid = none := (removeFirst_eq_none pid pids).mpr hout
              rw [show parseTasksLoop samples (TaskLine.row pid v :: rest) pids none dead =
                parseTasksLoop samples rest pids none dead from by
                  simp [parseTasksLoop, hpid, hrm]]
              rw [ih pids dead hrest]
              have hlast : lastDeadVal (TaskLine.row pid v :: rest) = lastDeadVal rest := by
                unfold lastDeadVal
                rw [show List.filterMap deadVal (TaskLine.row pid v :: rest) =
                  List.filterMap deadVal rest from by simp [deadVal, hpid]]
              rw [hlast]

/-- Counterexample for C6 as stated: the claim applies outlier rejection
whenever the fallback exceeds `sample_count * running_mean / 2`, but the code
guards it with `n_samples > 1`. With one recorded sample `4` and a dead-tasks
value `3` (which exceeds `1 * 4 / 2 = 2`), the claim predicts the appended
sample `4` (the running mean) while `_parse_tasks` appends `3`. -/
theorem c6_counterexample :
    ¬ (∀ (pids : List Int) (samples : List Rat) (lines : List TaskLine) (d : Rat),
        (∀ p v, TaskLine.row p v ∈ lines → p = -1 ∨ p ∉ pids) →
        lastDeadVal lines = some d →
        parse_tasks pids samples lines =
          samples ++ [if (samples.length : Rat) * sampleMean samples / 2 < d
                      then sampleMean samples else d]) := by
  intro h
  have hrows : ∀ p v, TaskLine.row p v ∈ [TaskLine.row (-1) 3] → p = -1 ∨ p ∉ ([] : List Int) := by
    intro p v hm
    simp only [List.mem_singleton] at hm
    injection hm with h1 _
    exact Or.inl h1
  have h2 := h [] [4] [TaskLine.row (-1) 3] 3 hrows rfl
  have hcode : parse_tasks [] [4] [TaskLine.row (-1) 3] = [4, 3] := rfl
  have hmean : sampleMean [4] = 4 := by norm_num [sampleMean]
  have hcond : ((([4] : List Rat).length : Rat)) * sampleMean [4] / 2 < 3 := by
    rw [hmean]
    norm_num
  rw [hcode, if_pos hcond, hmean] at h2
  simp at h2

/-- C6 (amended): for every parsed chunk in which no per-pid row of the
profiled process tree is present, the dead-tasks aggregate value (of the last
dead-tasks line) is used as the fallback sample, with outlier rejection only
once more than one sample has been recorded: the fallback is replaced by the
running mean of the samples recorded so far when more than one sample exists
and it exceeds `sample_count * running_mean / 2`; with at most one recorded
sample the fallback is appended as-is. When such a chunk has no dead-tasks
line either, no sample is appended. -/
theorem c6_dead_tasks_fallback :
    ∀ (pids : List Int) (samples : List Rat) (lines : List TaskLine),
      (∀ p v, TaskLine.row p v ∈ lines → p = -1 ∨ p ∉ pids) →
      (∀ d, lastDeadVal lines = some d →
        parse_tasks pids samples lines =
          samples ++ [if 1 < samples.length ∧
                        (samples.length : Rat) * sampleMean samples / 2 < d
                      then sampleMean samples else d]) ∧
      (lastDeadVal lines = none → parse_tasks pids samples lines = samples) := by
  intro pids samples lines hrows
  have hloop := parseTasksLoop_no_tree_rows samples lines pids none hrows
  constructor
  · intro d hd
    unfold parse_tasks
    rw [hloop, hd]
    simp only [Option.map_some', Option.or]
    rfl
  · intro hd
    unfold parse_tasks
    rw [hloop, hd]
    rfl

/-- Witness for C6 (amended): with profiled pids `[7]`, recorded samples
`[4, 6]` (mean `5`) and a chunk of one unparsable line, one row of an
untracked pid and a dead-tasks row of `100 > 2 * 5 / 2`, the appended
fallback is the running mean; and a chunk with no dead-tasks line appends
nothing. -/
theorem c6_dead_tasks_fallback_witness :
    parse_tasks [7] [4, 6]
        [TaskLine.unparsed, TaskLine.row 9 5, TaskLine.row (-1) 100] =
      [4, 6] ++ [if 1 < ([4, 6] : List Rat).length ∧
                   ((([4, 6] : List Rat).length : Rat)) * sampleMean [4, 6] / 2 < 100
                 then sampleMean [4, 6] else 100] ∧
    parse_tasks [7] [4, 6] [TaskLine.unparsed, TaskLine.row 9 5] = [4, 6] := by
  have hrows1 : ∀ p v,
      TaskLine.row p v ∈ [TaskLine.unparsed, TaskLine.row 9 5, TaskLine.row (-1) 100] →
      p = -1 ∨ p ∉ ([7] : List Int) := by
    intro p v hm
    simp only [List.mem_cons, List.mem_singleton, List.not_mem_nil, or_false] at hm
    rcases hm with h | h | h
    · exact TaskLine.noConfusion h
    · injection h with h1 _
      subst h1
      right
      decide
    · injection h with h1 _
      subst h1
      exact Or.inl rfl
  have hrows2 : ∀ p v, TaskLine.row p v ∈ [TaskLine.unparsed, TaskLine.row 9 5] →
      p = -1 ∨ p ∉ ([7] : List Int) := by
    intro p v hm
    simp only [List.mem_cons, List.mem_singleton, List.not_mem_nil, or_false] at hm
    rcases hm with h | h
    · exact TaskLine.noConfusion h
    · injection h with h1 _
      subst h1
      right
      decide
  exact ⟨(c6_dead_tasks_fallback [7] [4, 6]
      [TaskLine.unparsed, TaskLine.row 9 5, TaskLine.row (-1) 100] hrows1).1 100 rfl,
    (c6_dead_tasks_fallback [7] [4, 6]
      [TaskLine.unparsed, TaskLine.row 9 5] hrows2).2 rfl⟩

/-! ## Powertop value parsing (`PowertopProbe._parse_value`, C7)

`_parse_value` builds `PowerUnit(unit)(value)` and converts it to watts;
`KeyError`/`ValueError` (unknown unit value, unparsable float) yield `0.0`.
Python's builtin `float(str)` is modelled on plain decimal tokens: optional
sign, digits with an optional fractional part (at least one digit overall)
and an optional exponent; anything else is `none` (`ValueError`). The
inf/nan spellings, surrounding whitespace and underscore digit separators
accepted by `float` are outside the token shapes this probe can produce and
are not modelled. -/

/-- Consume a run of decimal digits, returning the accumulated value, the
number of digits consumed and the rest of the input. -/
def takeDigits (acc n : Nat) : List Char → Nat × Nat × List Char
  | [] => (acc, n, [])
  | c :: cs =>
      if c.isDigit then takeDigits (acc * 10 + (c.toNat - 48)) (n + 1) cs
      else (acc, n, c :: cs)

/-- Python `float(str)` on decimal tokens (see the section comment). -/
def pyFloat? (s : String) : Option Rat :=
  let sgn : Rat × List Char :=
    match s.toList with
    | '+' :: r => (1, r)
    | '-' :: r => (-1, r)
    | r => (1, r)
  let ip := takeDigits 0 0 sgn.2
  let dotRest : Bool × List Char :=
    match ip.2.2 with
    | '.' :: r => (true, r)
    | r => (false, r)
  let fp := if dotRest.1 then takeDigits 0 0 dotRest.2 else (0, 0, dotRest.2)
  if ip.2.1 + fp.2.1 = 0 then none
  else
    let mant : Rat := sgn.1 * ((ip.1 : Rat) + (fp.1 : Rat) / 10 ^ fp.2.1)
    match fp.2.2 with
    | [] => some mant
    | e :: r =>
        if e == 'e' || e == 'E' then
          let esgn : Bool × List Char :=
            match r with
            | '+' :: rr => (false, rr)
            | '-' :: rr => (true, rr)
            | rr => (false, rr)
          let ev := takeDigits 0 0 esgn.2
          if ev.2.1 = 0 then none
          else if ev.2.2 ≠ [] then none
          else some (if esgn.1 then mant / 10 ^ ev.1 else mant * 10 ^ ev.1)
        else none

/-- `PowerUnit` from `types/unit.py`. -/
inductive PowerUnit where
  | uW
  | mW
  | W
  | kW
  deriving DecidableEq, Repr

/-- `PowerUnit.multiplier`: scale of each unit relative to one watt. -/
def PowerUnit.multiplier : PowerUnit → Rat
  | PowerUnit.uW => 1 / 1000000
  | PowerUnit.mW => 1 / 1000
  | PowerUnit.W => 1
  | PowerUnit.kW => 1000

/-- Enum construction by value, `PowerUnit(unit)`: `none` models the
`ValueError` raised on an unrecognized unit string. -/
def PowerUnit.fromStr (s : String) : Option PowerUnit :=
  if s == "uW" then some PowerUnit.uW
  else if s == "mW" then some PowerUnit.mW
  else if s == "W" then some PowerUnit.W
  else if s == "KW" then some PowerUnit.kW
  else none

/-- `PowertopProbe._parse_value`: `PowerUnit(unit)(value).to_value(PowerUnit.W)`
with `KeyError`/`ValueError` swallowed into `0.0`. `to_value` multiplies by
the source multiplier and divides by the watt multiplier. -/
def parse_value (value unit : String) : Rat :=
  match PowerUnit.fromStr unit with
  | none => 0
  | some u =>
      match pyFloat? value with
      | none => 0
      | some x => x * u.multiplier / PowerUnit.multiplier PowerUnit.W

/-- C7: the powertop value parser scales `uW` by 1e-6, `mW` by 1e-3 and `W`
by 1 (so "12.5" uW is 1.25e-5 W, "3" mW is 0.003 W, "2" W is 2.0 W), and any
unparsable numeric token or unrecognized unit yields `0.0` instead of an
exception (the embedding is a total function). -/
theorem c7_parse_value :
    parse_value "12.5" "uW" = 1.25e-5 ∧
    parse_value "3" "mW" = 0.003 ∧
    parse_value "2" "W" = 2 ∧
    (∀ value unit, pyFloat? value = none → parse_value value unit = 0) ∧
    (∀ value unit, PowerUnit.fromStr unit = none → parse_value value unit = 0) := by
  have h1 : parse_value "12.5" "uW" =
      ((1 : Rat) * (((12 : Nat) : Rat) + ((5 : Nat) : Rat) / (10 : Rat) ^ (1 : Nat)))
        * PowerUnit.multiplier PowerUnit.uW / PowerUnit.multiplier PowerUnit.W := rfl
  have h2 : parse_value "3" "mW" =
      ((1 : Rat) * (((3 : Nat) : Rat) + ((0 : Nat) : Rat) / (10 : Rat) ^ (0 : Nat)))
        * PowerUnit.multiplier PowerUnit.mW / PowerUnit.multiplier PowerUnit.W := rfl
  have h3 : parse_value "2" "W" =
      ((1 : Rat) * (((2 : Nat) : Rat) + ((0 : Nat) : Rat) / (10 : Rat) ^ (0 : Nat)))
        * PowerUnit.multiplier PowerUnit.W / PowerUnit.multiplier PowerUnit.W := rfl
  refine ⟨by rw [h1]; norm_num [PowerUnit.multiplier],
    by rw [h2]; norm_num [PowerUnit.multiplier],
    by rw [h3]; norm_num [PowerUnit.multiplier], ?_, ?_⟩
  · intro value unit h
    unfold parse_value
    cases hu : PowerUnit.fromStr unit with
    | none => rfl
    | some u => rw [h]
  · intro value unit h
    unfold parse_value
    rw [h]

/-- Witness for C7: "garbage" is unparsable and yields `0.0`; "pW" is not a
recognized unit and yields `0.0`. -/
theorem c7_parse_value_witness :
    pyFloat? "garbage" = none ∧ parse_value "garbage" "W" = 0 ∧
    PowerUnit.fromStr "pW" = none ∧ parse_value "12.5" "pW" = 0 :=
  ⟨rfl, c7_parse_value.2.2.2.1 "garbage" "W" rfl,
   rfl, c7_parse_value.2.2.2.2 "12.5" "pW" rfl⟩

/-! ## `Task.raise_if_failed` (`pyutils/proc/task.py`, C8)

A completed task is its name, (integer) exit code and the frozen
stdout/stderr (`None` when the output policy did not capture). Python
truthiness of an optional string (`None`/`""` falsy) drives both the raise
condition and the assembly of the error message. -/

/-- The attributes of a completed task that `raise_if_failed` reads. -/
structure CompletedTask where
  name : String
  exit_code : Int
  stdout : Option String
  stderr : Option String
  deriving DecidableEq, Repr

/-- Python truthiness of an optional string: `None` and `""` are falsy. -/
def optTruthy : Option String → Bool
  | some s => !(s == "")
  | none => false

/-- `self.stderr.strip() if self.stderr else None`: strip a truthy stream,
`None` otherwise. -/
def strippedIfTruthy : Option String → Option String
  | some s => if s == "" then none else some (pyStrip s)
  | none => none

/-- The `proc_out` of `raise_if_failed`: the stripped stderr if truthy, else
the stripped stdout (if truthy). -/
def streamOutput (t : CompletedTask) : Option String :=
  let po := strippedIfTruthy t.stderr
  if optTruthy po then po else strippedIfTruthy t.stdout

/-- The `auto_msg` of `raise_if_failed`: `some` exactly when the method
raises. -/
def autoMessage (t : CompletedTask) (ensure_output : Bool) : Option String :=
  if t.exit_code ≠ 0 then
    some ("Process \"" ++ t.name ++ "\" returned exit code: " ++ toString t.exit_code)
  else if ensure_output && !(optTruthy t.stdout) then
    some ("Process \"" ++ t.name ++ "\" returned no output.")
  else none

/-- `Task.raise_if_failed`: raise an `IOError` (modelled as `Except.error`
carrying the message) when the exit code is non-zero or, with
`ensure_output`, when stdout is falsy; the message joins the truthy entries
of `[message, auto_msg, proc_out]` with newlines. -/
def raise_if_failed (t : CompletedTask) (ensure_output : Bool)
    (message : Option String) : Except String Unit :=
  match autoMessage t ensure_output with
  | none => Except.ok ()
  | some auto =>
      Except.error (String.intercalate "\n"
        (([message, some auto, streamOutput t].filterMap id).filter
          (fun m => !(m == ""))))

/-- Whether the character list `s` starts with `pat`. -/
def startsList : List Char → List Char → Bool
  | _, [] => true
  | [], _ :: _ => false
  | c :: cs, p :: ps => c == p && startsList cs ps

/-- Whether the character list contains `pat` as a contiguous run. -/
def hasSubList (pat : List Char) : List Char → Bool
  | [] => startsList [] pat
  | c :: cs => startsList (c :: cs) pat || hasSubList pat cs

/-- Whether `s` contains `pat` as a substring. -/
def hasSubstring (s pat : String) : Bool :=
  hasSubList pat.toList s.toList

/-- Counterexample for C8 as stated: the claim requires the auto-generated
summary in every failure message to contain the process name and the exit
code, but in the `ensure_output` branch the code raises on a zero exit code
with the message `Process "x" returned no output.`, which does not contain
the exit code `0`. -/
theorem c8_counterexample :
    ¬ (∀ (t : CompletedTask) (eo : Bool) (msg : Option String) (e : String),
        raise_if_failed t eo msg = Except.error e →
        hasSubstring e (toString t.exit_code) = true) := by
  intro h
  have := h ⟨"x", 0, some "", none⟩ true none
    "Process \"x\" returned no output." rfl
  exact absurd this (by decide)

/-- C8 (amended): `raise_if_failed(ensure_output, message)` raises iff the
exit code is non-zero or `ensure_output` is set and the captured stdout is
falsy (absent or empty); the failure message is the newline-joined
concatenation, in order, of the truthy entries among the optional caller
message, an auto-generated summary, and the whitespace-stripped captured
stderr (or stripped stdout when the stripped stderr is empty or absent) —
where the summary names the process and states the exit code when it is
non-zero, and otherwise states that the process returned no output. -/
theorem c8_raise_semantics :
    ∀ (t : CompletedTask) (eo : Bool) (msg : Option String),
      ((∃ e, raise_if_failed t eo msg = Except.error e) ↔
        (t.exit_code ≠ 0 ∨ (eo = true ∧ optTruthy t.stdout = false))) ∧
      (∀ e, raise_if_failed t eo msg = Except.error e →
        e = String.intercalate "\n"
          (([msg, autoMessage t eo, streamOutput t].filterMap id).filter
            (fun m => !(m == "")))) ∧
      (t.exit_code ≠ 0 → autoMessage t eo =
        some ("Process \"" ++ t.name ++ "\" returned exit code: "
          ++ toString t.exit_code)) ∧
      (t.exit_code = 0 → eo = true → optTruthy t.stdout = false →
        autoMessage t eo = some ("Process \"" ++ t.name ++ "\" returned no output.")) := by
  intro t eo msg
  have hnone : autoMessage t eo = none ↔
      (t.exit_code = 0 ∧ (eo = false ∨ optTruthy t.stdout = true)) := by
    unfold autoMessage
    by_cases h0 : t.exit_code ≠ 0
    · simp [h0]
    · push_neg at h0
      cases eo with
      | false => simp [h0]
      | true =>
          cases h1 : optTruthy t.stdout with
          | false => simp [h0, h1]
          | true => simp [h0, h1]
  have hsome : ¬ (autoMessage t eo = none) ↔
      (t.exit_code ≠ 0 ∨ (eo = true ∧ optTruthy t.stdout = false)) := by
    rw [hnone, not_and_or, not_or]
    constructor
    · rintro (h0 | ⟨he, ht⟩)
      · exact Or.inl h0
      · refine Or.inr ⟨?_, ?_⟩
        · cases eo with
          | false => exact absurd rfl he
          | true => rfl
        · cases h1 : optTruthy t.stdout with
          | false => rfl
          | true => exact absurd h1 ht
    · rintro (h0 | ⟨he, ht⟩)
      · exact Or.inl h0
      · refine Or.inr ⟨?_, ?_⟩
        · rw [he]
          simp
        · rw [ht]
          simp
  refine ⟨?_, ?_, ?_, ?_⟩
  · constructor
    · rintro ⟨e, he⟩
      apply hsome.mp
      intro hn
      rw [raise_if_failed, hn] at he
      exact Except.noConfusion he
    · intro hc
      cases h : autoMessage t eo with
      | none => exact absurd h (hsome.mpr hc)
      | some auto => exact ⟨_, by rw [raise_if_failed, h]⟩
  · intro e he
    cases h : autoMessage t eo with
    | none =>
        rw [raise_if_failed, h] at he
        exact Except.noConfusion he
    | some auto =>
        rw [raise_if_failed, h] at he
        exact (Except.error.inj he).symm
  · intro h0
    unfold autoMessage
    rw [if_pos h0]
  · intro h0 heo hout
    unfold autoMessage
    rw [if_neg (by simp [h0]), heo, hout]
    rfl

/-- Witness for C8 (amended): a task with exit code 2, stdout `"out\n"` and
whitespace-only stderr, called with a caller message, raises with the
caller message, the exit-code summary and the stripped stdout joined by
newlines. -/
theorem c8_raise_semantics_witness :
    (∃ e, raise_if_failed ⟨"foo", 2, some "out\n", some " "⟩ false (some "ctx") =
      Except.error e) ∧
    raise_if_failed ⟨"foo", 2, some "out\n", some " "⟩ false (some "ctx") =
      Except.error (String.intercalate "\n"
        (([some "ctx", autoMessage ⟨"foo", 2, some "out\n", some " "⟩ false,
          streamOutput ⟨"foo", 2, some "out\n", some " "⟩].filterMap id).filter
          (fun m => !(m == "")))) := by
  have h := c8_raise_semantics ⟨"foo", 2, some "out\n", some " "⟩ false (some "ctx")
  have he := h.1.mpr (Or.inl (by decide))
  rcases he with ⟨e, he⟩
  refine ⟨⟨e, he⟩, ?_⟩
  rw [he, h.2.1 e he]
